import Mathlib

/-!
Verification development for the bossman MCP stdio server
(protocol core: internal/mcp/types.go, internal/mcp/errors.go,
internal/mcp/transport.go, internal/mcp/server.go; reference handler:
internal/tools/registry.go, internal/tools/tasks.go; store: internal/db/db.go).

The Go code is shallowly embedded: JSON-RPC identifiers are kept in their
raw serialized form (Go stores them as `json.RawMessage`; `Jid` models the
forms a JSON-RPC id can take: string, integer, or the literal `null`), raw
parameter payloads are abstracted by the results of the unmarshal attempts
the server performs on them, and the stateful server loop becomes explicit
state passing over a `Server` record.
-/

namespace Bossman

/-- The raw serialized form of a JSON-RPC identifier.  Go keeps the id as
`json.RawMessage`: an absent field is the nil message (modelled as `none` at
use sites), the literal `null` is the four bytes `null` (modelled as
`Jid.null`), and strings and integers keep their JSON type. -/
inductive Jid
  | str (s : String)
  | num (n : Int)
  | null
deriving DecidableEq

/-- Whether an (optional) response identifier serializes as JSON `null` on
the wire: Go marshals both a nil `json.RawMessage` and the stored literal
`null` as `null` under the `json:"id"` tag. -/
def wireNullId : Option Jid → Bool
  | none => true
  | some Jid.null => true
  | some (Jid.str _) => false
  | some (Jid.num _) => false

/-! ## Error model (internal/mcp/errors.go) -/

def codeParseError : Int := -32700

def codeInvalidRequest : Int := -32600

def codeMethodNotFound : Int := -32601

def codeInvalidParams : Int := -32602

def codeInternalError : Int := -32603

/-- JSON-RPC 2.0 error object (`Error` in errors.go).  The optional `Data`
field is never populated by any constructor in the source, so it is
omitted from the embedding. -/
structure ErrorObj where
  code : Int
  message : String
deriving DecidableEq

def newParseError (msg : String) : ErrorObj :=
  { code := codeParseError, message := msg }

def newInvalidRequest (msg : String) : ErrorObj :=
  { code := codeInvalidRequest, message := msg }

def newMethodNotFound (method : String) : ErrorObj :=
  { code := codeMethodNotFound, message := "method not found: " ++ method }

def newInvalidParams (msg : String) : ErrorObj :=
  { code := codeInvalidParams, message := msg }

def newInternalError (msg : String) : ErrorObj :=
  { code := codeInternalError, message := msg }

/-! ## Protocol payload types (internal/mcp/types.go) -/

structure EntityInfo where
  name : String
  version : String
deriving DecidableEq

/-- The `Capabilities` in types.go: each field is a `*struct{}` presence marker
(`true` models a non-nil pointer, which marshals to the empty object). -/
structure Capabilities where
  tools : Bool
  logging : Bool
deriving DecidableEq

structure InitializeResult where
  protocolVersion : String
  capabilities : Capabilities
  serverInfo : EntityInfo
deriving DecidableEq

structure ToolDefinition where
  name : String
  description : String
  inputSchema : String
deriving DecidableEq

structure ContentBlock where
  type : String
  text : String
deriving DecidableEq

structure ToolResult where
  content : List ContentBlock
  isError : Bool
deriving DecidableEq

/-! ## Task tool argument and record types
(internal/tools/tasks.go, internal/db/db.go) -/

/-- The parsed form of `create_task` arguments (the anonymous params struct
in `createTask`, tasks.go).  A field is `none` when absent from the
argument object. -/
structure CreateTaskParams where
  description : String
  parentId : Option String
  priority : Option Int
  context : Option String
deriving DecidableEq

/-- The `db.Task`.  The string timestamp columns are kept; the Go zero value of
a string field is the empty string and of a pointer field is nil. -/
structure Task where
  id : String
  parentId : Option String
  description : String
  context : String
  priority : Int
  status : String
  result : Option String
  createdAt : String
  startedAt : Option String
  completedAt : Option String
  updatedAt : String
deriving DecidableEq

/-- Opaque tool-argument bytes (`json.RawMessage`), abstracted by the result
of the one unmarshal the modelled tools perform on them: `none` means the
bytes do not unmarshal into the `create_task` params struct. -/
structure Args where
  asCreateTask : Option CreateTaskParams
deriving DecidableEq

/-- The `ToolCallParams` in types.go: the outer envelope of `tools/call`. -/
structure ToolCallParams where
  name : String
  arguments : Args
deriving DecidableEq

/-- The `CancelParams` in types.go.  `requestId` is a raw `json.RawMessage`;
`none` models an absent field (whose raw bytes are nil, giving the empty
in-flight key, which never collides with a present id). -/
structure CancelParams where
  requestId : Option Jid
  reason : String
deriving DecidableEq

/-- Opaque request-parameter bytes (`json.RawMessage`), abstracted by the
results of the unmarshal attempts the server performs on them:
`handleToolsCall` unmarshals into `ToolCallParams` and `handleNotification`
unmarshals into `CancelParams`; `none` records that the corresponding
unmarshal fails on these bytes. -/
structure ParamsView where
  asToolCall : Option ToolCallParams
  asCancel : Option CancelParams
deriving DecidableEq

/-! ## Requests and responses (internal/mcp/types.go) -/

/-- The `Request` in types.go.  `jsonrpc` is the raw protocol tag (`none` when
the field is absent); `id = none` models an absent id field (Go nil
`json.RawMessage`), while an explicit JSON `null` id is `some Jid.null`
(Go's `json.RawMessage` stores the literal `null` bytes, which are not
nil). -/
structure Request where
  jsonrpc : Option String
  id : Option Jid
  method : String
  params : ParamsView
deriving DecidableEq

/-- The `Request.IsNotification`: true iff the id field is absent (Go `ID == nil`). -/
def Request.isNotification (r : Request) : Bool := r.id.isNone

/-- The result payload of a response, by provenance (in Go this is the
marshalled `json.RawMessage`; marshalling of these concrete payload types
never fails in the source, so it is modelled as total). -/
inductive ResultPayload
  | initResult (r : InitializeResult)
  | toolsList (tools : List ToolDefinition)
  | toolResult (r : ToolResult)
  | emptyObj
deriving DecidableEq

/-- The `Response` in types.go. -/
structure Response where
  jsonrpc : String
  id : Option Jid
  result : Option ResultPayload
  error : Option ErrorObj
deriving DecidableEq

/-- The `NewResponse` in types.go. -/
def newResponse (id : Option Jid) (result : ResultPayload) : Response :=
  { jsonrpc := "2.0", id := id, result := some result, error := none }

/-- The `NewErrorResponse` in types.go. -/
def newErrorResponse (id : Option Jid) (e : ErrorObj) : Response :=
  { jsonrpc := "2.0", id := id, result := none, error := some e }

/-! ## Registry (internal/tools/registry.go) -/

/-- The shape of a tool implementation (`toolFunc` in registry.go, with the
cancellation context elided: in this sequential embedding the context is
only ever consulted by tools themselves). -/
def ToolFn : Type := Args → Except String ToolResult

/-- The `registeredTool` in registry.go. -/
structure RegisteredTool where
  defn : ToolDefinition
  invoke : ToolFn

/-- The `Registry` in registry.go: a name-keyed mapping to
(definition, implementation) pairs, modelled as an association list. -/
structure Registry where
  tools : List (String × RegisteredTool)

/-- The `Registry.ListTools`. -/
def Registry.listTools (r : Registry) : List ToolDefinition :=
  r.tools.map (fun p => p.snd.defn)

/-- The `Registry.CallTool`: look up by name; a miss returns the
`unknown tool: <name>` error. -/
def Registry.callTool (r : Registry) (name : String) (args : Args) :
    Except String ToolResult :=
  match r.tools.find? (fun p => p.fst == name) with
  | none => Except.error ("unknown tool: " ++ name)
  | some p => p.snd.invoke args

/-! ## Server state and dispatch (internal/mcp/server.go) -/

/-- The `ServerState` in types.go. -/
inductive ServerState
  | created
  | initializing
  | operating
  | shutdown
deriving DecidableEq

/-- Position of a lifecycle state in the order
Created < Initializing < Operating < Shutdown. -/
def ServerState.idx : ServerState → Nat
  | ServerState.created => 0
  | ServerState.initializing => 1
  | ServerState.operating => 2
  | ServerState.shutdown => 3

/-- The mutable fields of `Server` (server.go): lifecycle state and the
in-flight table.  The table maps the raw serialized id of an in-progress
`tools/call` to its cancellation token; only the key set is observable in
this embedding, so it is modelled as the list of keys.  A key is an
`Option Jid`: `none` is the empty key `string(nil)`. -/
structure Server where
  state : ServerState
  inflight : List (Option Jid)
deriving DecidableEq

def initialServer : Server :=
  { state := ServerState.created, inflight := [] }

/-- The `InitializeResult` literal built by `handleInitialize`. -/
def serverInitResult : InitializeResult :=
  { protocolVersion := "2025-03-26"
    capabilities := { tools := true, logging := true }
    serverInfo := { name := "bossman", version := "0.1.0" } }

/-- The `handleInitialize` (server.go): set state to Initializing, then build
and return the initialize response.  Marshalling the literal result never
fails, so the internal-error branch is unreachable and omitted. -/
def handleInitializeReq (s : Server) (req : Request) : Option Response × Server :=
  (some (newResponse req.id (ResultPayload.initResult serverInitResult)),
   { s with state := ServerState.initializing })

/-- The `handleToolsList` (server.go). -/
def handleToolsListReq (reg : Registry) (s : Server) (req : Request) :
    Option Response × Server :=
  (some (newResponse req.id (ResultPayload.toolsList reg.listTools)), s)

/-- Wrapping of the `CallTool` outcome (server.go lines 100-105): a handler
error becomes a tool result with `isError = true` and one text content
block holding the error message; this is still a successful protocol
response. -/
def wrapToolOutcome : Except String ToolResult → ToolResult
  | Except.ok r => r
  | Except.error msg => { content := [{ type := "text", text := msg }], isError := true }

/-- The `handleToolsCall` (server.go): parse the `{name, arguments}` envelope
(malformed gives -32602), insert the in-flight entry keyed by the raw id,
invoke the handler, remove the entry, and answer with the (possibly
error-wrapped) tool result.  The parse-failure message is input-dependent
text from `encoding/json`; it is abstracted as a constant since no claim
inspects it.  Marshalling a `ToolResult` never fails, so the -32603 branch
is unreachable and omitted. -/
def handleToolsCallReq (reg : Registry) (s : Server) (req : Request) :
    Option Response × Server :=
  match req.params.asToolCall with
  | none => (some (newErrorResponse req.id (newInvalidParams "invalid params")), s)
  | some p =>
    let key := req.id
    let s1 : Server := { s with inflight := key :: s.inflight }
    let outcome := reg.callTool p.name p.arguments
    let s2 : Server := { s1 with inflight := s1.inflight.erase key }
    (some (newResponse req.id (ResultPayload.toolResult (wrapToolOutcome outcome))), s2)

/-- The `notifications/cancelled` effect on the in-flight table
(server.go lines 132-138): if an entry for the key exists, fire its token
and remove it; otherwise do nothing. -/
def cancelInflight (inflight : List (Option Jid)) (key : Option Jid) :
    List (Option Jid) :=
  if inflight.contains key then inflight.erase key else inflight

/-- The `handleNotification` (server.go): `notifications/initialized` moves
Initializing to Operating (otherwise ignored); `notifications/cancelled`
parses `CancelParams` (malformed is silently ignored) and removes a
matching in-flight entry; every other method is ignored. -/
def handleNotificationReq (s : Server) (req : Request) : Server :=
  if req.method = "notifications/initialized" then
    if s.state = ServerState.initializing then
      { s with state := ServerState.operating }
    else s
  else if req.method = "notifications/cancelled" then
    match req.params.asCancel with
    | none => s
    | some p => { s with inflight := cancelInflight s.inflight p.requestId }
  else s

/-- The `dispatch` (server.go): notifications (absent id) are routed to the
notification handler and produce no response; otherwise route by method
name under the state snapshot, exactly as the source's switch. -/
def dispatch (reg : Registry) (s : Server) (req : Request) :
    Option Response × Server :=
  match req.id with
  | none => (none, handleNotificationReq s req)
  | some _ =>
    if req.method = "initialize" then
      if s.state ≠ ServerState.created then
        (some (newErrorResponse req.id (newInvalidRequest "already initialized")), s)
      else handleInitializeReq s req
    else if req.method = "ping" then
      (some (newResponse req.id ResultPayload.emptyObj), s)
    else if req.method = "tools/list" then
      if s.state ≠ ServerState.operating then
        (some (newErrorResponse req.id (newInvalidRequest "server not initialized")), s)
      else handleToolsListReq reg s req
    else if req.method = "tools/call" then
      if s.state ≠ ServerState.operating then
        (some (newErrorResponse req.id (newInvalidRequest "server not initialized")), s)
      else handleToolsCallReq reg s req
    else
      (some (newErrorResponse req.id (newMethodNotFound req.method)), s)

/-! ## Transport (internal/mcp/transport.go) and the main loop (server.go `Run`) -/

/-- One framed input line, abstracted by what `ReadMessage` observes of it:
a line whose first significant byte is `[` parses (or not) as a JSON array
of requests, any other line parses (or not) as a single request object.
`malformed` covers invalid JSON and whitespace-only lines; `tooLong` is a
line exceeding the 1 MiB scanner buffer (`bufio.ErrTooLong`, surfaced by
`scanner.Err()`); `ioError` is any other underlying stream error. -/
inductive Line
  | single (r : Request)
  | batch (rs : List Request)
  | malformed
  | tooLong
  | ioError
deriving DecidableEq

/-- How a `ReadMessage` failure classifies per the spec's taxonomy.  In Go
both kinds are surfaced as the same `error` type, and `Run` does not
distinguish them. -/
inductive ReadErr
  | parseFailure
  | transportFailure
deriving DecidableEq

/-- The `Transport.ReadMessage`: one framed line becomes a list of request
records (length 1 for a single object, the element list for an array);
the wire-form (batch-or-single) flag is not part of the return value in
the source. -/
def readMessage : Line → Except ReadErr (List Request)
  | Line.single r => Except.ok [r]
  | Line.batch rs => Except.ok rs
  | Line.malformed => Except.error ReadErr.parseFailure
  | Line.tooLong => Except.error ReadErr.transportFailure
  | Line.ioError => Except.error ReadErr.transportFailure

/-- One emitted output line: `WriteResponse` writes a single response
object, `WriteBatchResponse` writes a JSON array of responses. -/
inductive OutLine
  | singleResp (r : Response)
  | batchResp (rs : List Response)
deriving DecidableEq

/-- The responses carried by one output line. -/
def OutLine.resps : OutLine → List Response
  | OutLine.singleResp r => [r]
  | OutLine.batchResp rs => rs

/-- The batch arm of `Run`: dispatch each request in order, collecting the
non-nil responses. -/
def dispatchBatch (reg : Registry) (s : Server) :
    List Request → Server × List Response
  | [] => (s, [])
  | m :: ms =>
    let d := dispatch reg s m
    let rest := dispatchBatch reg d.snd ms
    (rest.fst, match d.fst with
               | some r => r :: rest.snd
               | none => rest.snd)

/-- The `Server.Run` (server.go): read a line, on EOF transition to Shutdown
and return cleanly, on any other read error emit one -32700 response with
null id and continue, on a single message write its response if any, on a
batch write the collected responses as one array line unless empty.  The
input stream is the line list followed by EOF; writes are modelled as
always succeeding (a write error is the only path on which the source
returns a non-nil error).  The -32700 message is the input-dependent
`err.Error()` text, abstracted as a constant. -/
def run (reg : Registry) (s : Server) : List Line → Server × List OutLine
  | [] => ({ s with state := ServerState.shutdown }, [])
  | l :: rest =>
    match readMessage l with
    | Except.error _ =>
      let resp := newErrorResponse none (newParseError "read error")
      let r := run reg s rest
      (r.fst, OutLine.singleResp resp :: r.snd)
    | Except.ok [m] =>
      let d := dispatch reg s m
      let r := run reg d.snd rest
      (r.fst, match d.fst with
              | some resp => OutLine.singleResp resp :: r.snd
              | none => r.snd)
    | Except.ok msgs =>
      let b := dispatchBatch reg s msgs
      let r := run reg b.fst rest
      (r.fst, if b.snd.isEmpty then r.snd else OutLine.batchResp b.snd :: r.snd)

/-! ## Lifecycle state traces -/

/-- The state snapshots taken after each message of a batch, in dispatch
order, together with the final server. -/
def dispatchBatchStates (reg : Registry) (s : Server) :
    List Request → List ServerState × Server
  | [] => ([], s)
  | m :: ms =>
    let d := dispatch reg s m
    let rest := dispatchBatchStates reg d.snd ms
    (d.snd.state :: rest.fst, rest.snd)

/-- The state snapshots taken after each dispatched message of the run,
ending with the Shutdown assignment at EOF.  Read errors dispatch nothing
and so record nothing. -/
def runStates (reg : Registry) (s : Server) : List Line → List ServerState
  | [] => [ServerState.shutdown]
  | l :: rest =>
    match readMessage l with
    | Except.error _ => runStates reg s rest
    | Except.ok [m] =>
      let d := dispatch reg s m
      d.snd.state :: runStates reg d.snd rest
    | Except.ok msgs =>
      let b := dispatchBatchStates reg s msgs
      b.fst ++ runStates reg b.snd rest

/-- The full snapshot trace of an execution: the initial state followed by
the per-message snapshots and the final Shutdown. -/
def stateTrace (reg : Registry) (s : Server) (input : List Line) :
    List ServerState :=
  s.state :: runStates reg s input

/-- Collapse consecutive duplicates, given the previous value: the sequence
of values actually taken by the state variable (a snapshot equal to its
predecessor is not a new value). -/
def collapseFrom (a : ServerState) : List ServerState → List ServerState
  | [] => []
  | b :: rest => if b = a then collapseFrom a rest else b :: collapseFrom b rest

/-- The sequence of values taken by the state variable along a snapshot
trace. -/
def valuesTaken : List ServerState → List ServerState
  | [] => []
  | a :: rest => a :: collapseFrom a rest

/-- The canonical lifecycle sequence of the spec. -/
def canonicalLifecycle : List ServerState :=
  [ServerState.created, ServerState.initializing, ServerState.operating,
   ServerState.shutdown]

/-- The `l₁` is an initial segment of `l₂`. -/
def isInitSegment (l₁ l₂ : List ServerState) : Prop :=
  ∃ t, l₁ ++ t = l₂

/-! ## The tool-call path interleaved with a cancellation
(server.go lines 74-115 and 127-138) -/

/-- The `tools/call` body at the granularity of its critical sections,
with the scheduling of a racing `notifications/cancelled` for the same id
made explicit: insert the in-flight entry (line 86); while `CallTool` is
in progress the cancellation handler may run, fire the token and remove
the entry (`cancelTakesEffect`); after the tool returns, remove the entry,
release the context, wrap the outcome and return the response — the source
never checks whether cancellation won before answering. -/
def toolCallInterleaved (s : Server) (req : Request) (_p : ToolCallParams)
    (outcome : Except String ToolResult) (cancelTakesEffect : Bool) :
    Option Response × Server :=
  let key := req.id
  let s1 : Server := { s with inflight := key :: s.inflight }
  let s2 : Server :=
    if cancelTakesEffect then { s1 with inflight := cancelInflight s1.inflight key }
    else s1
  let s3 : Server := { s2 with inflight := s2.inflight.erase key }
  (some (newResponse req.id (ResultPayload.toolResult (wrapToolOutcome outcome))), s3)

/-! ## The `create_task` tool (internal/tools/tasks.go) and the store
(internal/db/db.go) -/

/-- The task record constructed by `createTask` (tasks.go): priority
defaults to 3 and is overridden when supplied; context defaults to the
empty string; the remaining fields keep their Go zero values. -/
def newTaskRecord (newId : String) (p : CreateTaskParams) : Task :=
  { id := newId
    parentId := p.parentId
    description := p.description
    context := match p.context with
               | some c => c
               | none => ""
    priority := match p.priority with
                | some pr => pr
                | none => 3
    status := ""
    result := none
    createdAt := ""
    startedAt := none
    completedAt := none
    updatedAt := "" }

/-- Minimal JSON string escaping (quote and backslash; the further escapes
Go's encoder applies to control and HTML characters are outside the inputs
any claim touches). -/
def jsonEscape (s : String) : String :=
  String.join (s.toList.map (fun c =>
    if c = '\\' then "\\\\"
    else if c = '"' then "\\\""
    else String.singleton c))

def jsonStr (s : String) : String := "\"" ++ jsonEscape s ++ "\""

def jsonOptStr : Option String → String
  | none => "null"
  | some s => jsonStr s

/-- The `json.Marshal` of a `db.Task`: the struct carries only `db:` tags, so
the encoder uses the Go field names, in declaration order. -/
def taskJson (t : Task) : String :=
  "\x7b\"ID\":" ++ jsonStr t.id ++
  ",\"ParentID\":" ++ jsonOptStr t.parentId ++
  ",\"Description\":" ++ jsonStr t.description ++
  ",\"Context\":" ++ jsonStr t.context ++
  ",\"Priority\":" ++ toString t.priority ++
  ",\"Status\":" ++ jsonStr t.status ++
  ",\"Result\":" ++ jsonOptStr t.result ++
  ",\"CreatedAt\":" ++ jsonStr t.createdAt ++
  ",\"StartedAt\":" ++ jsonOptStr t.startedAt ++
  ",\"CompletedAt\":" ++ jsonOptStr t.completedAt ++
  ",\"UpdatedAt\":" ++ jsonStr t.updatedAt ++ "\x7d"

/-- The `resultJSON` (tasks.go) specialised to the task record it receives in
`createTask`: one text content block holding the marshalled record,
`IsError` left at its zero value false. -/
def resultJSON (t : Task) : ToolResult :=
  { content := [{ type := "text", text := taskJson t }], isError := false }

/-- The row as stored by `db.InsertTask`: the INSERT lists the columns
(id, description, parent_id, priority, context); the status and timestamp
columns take their schema defaults (`'pending'` and the current time,
passed in as `now`). -/
def storedRow (now : String) (t : Task) : Task :=
  { t with status := "pending", createdAt := now, updatedAt := now,
           startedAt := none, completedAt := none }

/-- The `db.InsertTask` against the SQLite schema (db.go): the id is the
primary key (unique), priority is CHECKed to lie in 1..5, and with
`_foreign_keys=ON` an inserted parent_id must reference an existing row.
The table is modelled as the list of stored rows. -/
def insertTask (now : String) (tasks : List Task) (t : Task) :
    Except String (List Task) :=
  if ∃ u ∈ tasks, u.id = t.id then
    Except.error "UNIQUE constraint failed: tasks.id"
  else if ¬ (1 ≤ t.priority ∧ t.priority ≤ 5) then
    Except.error "CHECK constraint failed: priority"
  else
    match t.parentId with
    | some pid =>
      if ∃ u ∈ tasks, u.id = pid then Except.ok (tasks ++ [storedRow now t])
      else Except.error "FOREIGN KEY constraint failed"
    | none => Except.ok (tasks ++ [storedRow now t])

/-- The `createTask` (tasks.go) on already-parsed arguments (a well-formed
argument payload is one that unmarshals into `CreateTaskParams`): build
the record with defaulted priority and context, persist it, and return it
as the tool result.  `newId` is the fresh `db.NewTaskID()` and `now` the
store's clock. -/
def createTask (newId : String) (now : String) (p : CreateTaskParams)
    (tasks : List Task) : Except String (ToolResult × List Task) :=
  let task := newTaskRecord newId p
  match insertTask now tasks task with
  | Except.error e => Except.error ("insert task: " ++ e)
  | Except.ok tasks' => Except.ok (resultJSON task, tasks')

/-! ## Concrete fixtures -/

/-- A tool implementation that ignores its arguments and succeeds. -/
def dummyTool : ToolFn := fun _ => Except.ok { content := [], isError := false }

/-- A registry holding one registered tool, `create_task`. -/
def demoRegistry : Registry :=
  { tools := [("create_task",
      { defn := { name := "create_task", description := "Create a new task",
                  inputSchema := "" },
        invoke := dummyTool })] }

/-- Parameter bytes that unmarshal into neither relevant params struct. -/
def noParams : ParamsView := { asToolCall := none, asCancel := none }

def pingReq1 : Request :=
  { jsonrpc := some "2.0", id := some (Jid.num 1), method := "ping", params := noParams }

def pingReq2 : Request :=
  { jsonrpc := some "2.0", id := some (Jid.num 2), method := "ping", params := noParams }

/-- The `{"jsonrpc":"2.0","id":null,"method":"ping"}`: a ping whose id field is
present and explicit JSON null. -/
def nullPing : Request :=
  { jsonrpc := some "2.0", id := some Jid.null, method := "ping", params := noParams }

def initializedNotif : Request :=
  { jsonrpc := some "2.0", id := none, method := "notifications/initialized",
    params := noParams }

def toolsListReq2 : Request :=
  { jsonrpc := some "2.0", id := some (Jid.num 2), method := "tools/list",
    params := noParams }

/-- The `{"jsonrpc":"2.0","id":3,"method":"tools/call","params":{"name":"nope","arguments":{}}}`. -/
def nopeCallReq : Request :=
  { jsonrpc := some "2.0", id := some (Jid.num 3), method := "tools/call",
    params := { asToolCall := some { name := "nope", arguments := { asCreateTask := none } },
                asCancel := none } }

/-- A `tools/call` with id 7 for a long-running tool. -/
def longCallReq : Request :=
  { jsonrpc := some "2.0", id := some (Jid.num 7), method := "tools/call",
    params := { asToolCall := some { name := "some_tool", arguments := { asCreateTask := none } },
                asCancel := none } }

def operatingServer : Server :=
  { state := ServerState.operating, inflight := [] }

/-! ## Dispatch lemmas -/

/-- A message without an id is a notification: dispatch produces no
response. -/
lemma dispatch_no_id (reg : Registry) (s : Server) (req : Request)
    (h : req.id = none) : (dispatch reg s req).fst = none := by
  unfold dispatch
  rw [h]

/-- Every response dispatch produces echoes the request's identifier, in
its raw serialized form. -/
lemma dispatch_id_echo (reg : Registry) (s : Server) (req : Request)
    (resp : Response) (h : (dispatch reg s req).fst = some resp) :
    resp.id = req.id := by
  unfold dispatch at h
  cases hid : req.id with
  | none => rw [hid] at h; simp at h
  | some j =>
    rw [hid] at h
    simp only at h
    split_ifs at h with h1 h2 h3 h4 h5 h6 h7 <;>
      first
      | (simp only [handleInitializeReq, handleToolsListReq, newResponse,
          newErrorResponse] at h
         cases h
         simp [hid])
      | (simp only [handleToolsCallReq] at h
         rcases hpc : req.params.asToolCall with _ | p <;>
           rw [hpc] at h <;>
           simp only [newResponse, newErrorResponse] at h <;>
           cases h <;> simp [hid])

/-- A message with an id always gets a response from dispatch. -/
lemma dispatch_some_of_id (reg : Registry) (s : Server) (req : Request)
    (j : Jid) (hid : req.id = some j) :
    (dispatch reg s req).fst.isSome := by
  unfold dispatch
  rw [hid]
  simp only
  split_ifs <;>
    first
    | simp [handleInitializeReq, handleToolsListReq]
    | (simp only [handleToolsCallReq]
       rcases hpc : req.params.asToolCall with _ | p <;> simp [hpc])

/-! ## Claim theorems -/

/-- C10: dispatch never inspects the protocol tag.  Two single messages
that are identical except for the value of the `jsonrpc` field (absent,
wrong, or `"2.0"`) produce identical dispatch behaviour — the same
response (if any) and the same successor server state — so a wrong or
missing protocol tag is never rejected. -/
theorem c10_jsonrpc_tag_ignored (reg : Registry) (s : Server) (req : Request)
    (v1 v2 : Option String) :
    dispatch reg s { req with jsonrpc := v1 } =
      dispatch reg s { req with jsonrpc := v2 } := by
  cases req
  rfl

/-- C7 (code bug): a single message whose id field is present and explicit
JSON null is NOT rejected as malformed.  Go's `json.RawMessage` stores the
literal `null`, so `IsNotification()` is false and the message is
dispatched as a normal request: a ping with explicit null id yields a
success result `{}` echoed with id null, contradicting the claim (and the
repo docs' "Request ID ... Never null" / "reject null"). -/
theorem c7_null_id_dispatched_normally :
    nullPing.isNotification = false ∧
    dispatch demoRegistry initialServer nullPing =
      (some (newResponse (some Jid.null) ResultPayload.emptyObj), initialServer) := by
  exact ⟨rfl, rfl⟩

/-- C1 (code bug): the dispatcher does not discard the result of a
cancelled tool call.  In the tool-call path interleaved with a racing
`notifications/cancelled`, the post-invocation code (server.go lines
93-114) removes the in-flight entry and answers unconditionally — it never
checks whether cancellation took effect — so a response is produced
whether or not the cancellation won (first conjunct, for every outcome and
schedule), and in particular the concrete cancelled call with id 7 whose
tool returns a context-cancelled error is still answered with a response
carrying id 7 (second conjunct), contradicting the claim. -/
theorem c1_cancelled_call_still_answered :
    (∀ (s : Server) (req : Request) (p : ToolCallParams)
       (outcome : Except String ToolResult) (cancelTakesEffect : Bool),
       (toolCallInterleaved s req p outcome cancelTakesEffect).fst =
         some (newResponse req.id (ResultPayload.toolResult (wrapToolOutcome outcome)))) ∧
    (toolCallInterleaved initialServer longCallReq
        { name := "some_tool", arguments := { asCreateTask := none } }
        (Except.error "context canceled") true).fst =
      some (newResponse (some (Jid.num 7))
        (ResultPayload.toolResult
          { content := [{ type := "text", text := "context canceled" }],
            isError := true })) := by
  exact ⟨fun s req p outcome c => rfl, rfl⟩

/-- C2 (code bug): `ReadMessage` drops the wire-form flag and `Run`
discriminates by `len(msgs) == 1`, so a batch of exactly one request is
answered with a bare response object, not a one-element JSON array (first
conjunct), although a two-request batch does get a single array line
(second conjunct) and a notifications-only batch produces no output
(third conjunct). -/
theorem c2_singleton_batch_answered_unarrayed :
    run demoRegistry initialServer [Line.batch [pingReq1]] =
      ({ state := ServerState.shutdown, inflight := [] },
       [OutLine.singleResp (newResponse (some (Jid.num 1)) ResultPayload.emptyObj)]) ∧
    run demoRegistry initialServer [Line.batch [pingReq1, pingReq2]] =
      ({ state := ServerState.shutdown, inflight := [] },
       [OutLine.batchResp
         [newResponse (some (Jid.num 1)) ResultPayload.emptyObj,
          newResponse (some (Jid.num 2)) ResultPayload.emptyObj]]) ∧
    run demoRegistry initialServer [Line.batch [initializedNotif]] =
      ({ state := ServerState.shutdown, inflight := [] }, []) := by
  exact ⟨rfl, rfl, rfl⟩

/-- C3 (code bug): a transport failure on the input stream does not
terminate the loop.  `Run` treats every non-EOF read error alike: on an
over-long line (or an underlying stream error) it emits a -32700
parse-error response with null id and continues reading, eventually
shutting down cleanly — it never terminates with an error on the read
side, contradicting the claim and the source's own doc comment. -/
theorem c3_transport_error_answered_not_fatal :
    run demoRegistry initialServer [Line.tooLong, Line.single pingReq1] =
      ({ state := ServerState.shutdown, inflight := [] },
       [OutLine.singleResp (newErrorResponse none (newParseError "read error")),
        OutLine.singleResp (newResponse (some (Jid.num 1)) ResultPayload.emptyObj)]) ∧
    run demoRegistry initialServer [Line.ioError] =
      ({ state := ServerState.shutdown, inflight := [] },
       [OutLine.singleResp (newErrorResponse none (newParseError "read error"))]) ∧
    (newParseError "read error").code = -32700 := by
  exact ⟨rfl, rfl, rfl⟩

/-- C6: dispatching an Operating-restricted method (`tools/list` or
`tools/call`) with an identifier while the state is not Operating yields
the -32600 invalid-request error response ("server not initialized") and
leaves the server — lifecycle state included — unchanged. -/
theorem c6_wrong_state_rejected (reg : Registry) (s : Server) (req : Request)
    (hid : req.id.isSome)
    (hm : req.method = "tools/list" ∨ req.method = "tools/call")
    (hs : s.state ≠ ServerState.operating) :
    dispatch reg s req =
      (some (newErrorResponse req.id (newInvalidRequest "server not initialized")), s) ∧
    (newInvalidRequest "server not initialized").code = -32600 := by
  obtain ⟨j, hj⟩ := Option.isSome_iff_exists.mp hid
  refine ⟨?_, rfl⟩
  unfold dispatch
  rw [hj]
  rcases hm with hm | hm <;> simp [hm, hs, hj]

/-- Witness for C6 at a concrete input: `tools/list` with id 2 dispatched
in the Created state. -/
theorem c6_wrong_state_rejected_witness :
    dispatch demoRegistry initialServer toolsListReq2 =
      (some (newErrorResponse (some (Jid.num 2))
        (newInvalidRequest "server not initialized")), initialServer) ∧
    (newInvalidRequest "server not initialized").code = -32600 :=
  c6_wrong_state_rejected demoRegistry initialServer toolsListReq2
    (by rfl) (Or.inl rfl) (by decide)

/-- C8: a `tools/call` dispatched in Operating whose envelope parses but
whose name is not registered is answered with a successful protocol
response (no error record) whose result is a tool result with
`isError = true` and a single text content block reading exactly
`unknown tool: <name>`. -/
theorem c8_unknown_tool_wrapped (reg : Registry) (s : Server) (req : Request)
    (name : String) (args : Args) (j : Jid)
    (hs : s.state = ServerState.operating)
    (hm : req.method = "tools/call")
    (hid : req.id = some j)
    (hp : req.params.asToolCall = some { name := name, arguments := args })
    (hmiss : reg.tools.find? (fun q => q.fst == name) = none) :
    (dispatch reg s req).fst =
      some { jsonrpc := "2.0", id := some j,
             result := some (ResultPayload.toolResult
               { content := [{ type := "text", text := "unknown tool: " ++ name }],
                 isError := true }),
             error := none } := by
  unfold dispatch
  rw [hid]
  simp only [hm, hs]
  simp [handleToolsCallReq, hp, Registry.callTool, hmiss, wrapToolOutcome,
    newResponse, hid]

/-- Witness for C8 at the spec's concrete transcript: calling `nope` with
id 3 against the demo registry in Operating. -/
theorem c8_unknown_tool_wrapped_witness :
    (dispatch demoRegistry operatingServer nopeCallReq).fst =
      some { jsonrpc := "2.0", id := some (Jid.num 3),
             result := some (ResultPayload.toolResult
               { content := [{ type := "text", text := "unknown tool: nope" }],
                 isError := true }),
             error := none } :=
  c8_unknown_tool_wrapped demoRegistry operatingServer nopeCallReq
    "nope" { asCreateTask := none } (Jid.num 3) rfl rfl rfl rfl (by rfl)

/-! ## Lifecycle order lemmas (towards C4) -/

/-- Non-strict lifecycle order. -/
def stateLe (a b : ServerState) : Prop := a.idx ≤ b.idx

/-- Strict lifecycle order. -/
def stateLt (a b : ServerState) : Prop := a.idx < b.idx

lemma stateIdx_le_three (a : ServerState) : a.idx ≤ 3 := by
  cases a <;> simp [ServerState.idx]

lemma stateLt_of_le_ne (a b : ServerState) (hne : b ≠ a)
    (hle : stateLe a b) : stateLt a b := by
  cases a <;> cases b <;>
    simp_all [stateLe, stateLt, ServerState.idx]

/-- Dispatch never moves the lifecycle state backward. -/
lemma dispatch_state_mono (reg : Registry) (s : Server) (req : Request) :
    stateLe s.state ((dispatch reg s req).snd).state := by
  unfold dispatch
  cases hid : req.id with
  | none =>
    simp only
    unfold handleNotificationReq
    split_ifs with h1 h2 h3
    · rw [h2]; simp [stateLe, ServerState.idx]
    · exact Nat.le_refl _
    · rcases hc : req.params.asCancel with _ | p <;> simp [stateLe]
    · exact Nat.le_refl _
  | some j =>
    simp only
    split_ifs with h1 h2 h3 h4 h5 h6 h7
    · exact Nat.le_refl _
    · unfold handleInitializeReq
      simp only
      rw [not_not] at h2
      rw [h2]
      simp [stateLe, ServerState.idx]
    · exact Nat.le_refl _
    · exact Nat.le_refl _
    · unfold handleToolsListReq; exact Nat.le_refl _
    · exact Nat.le_refl _
    · unfold handleToolsCallReq
      rcases hpc : req.params.asToolCall with _ | p <;> simp [hpc, stateLe]
    · exact Nat.le_refl _

/-- The per-batch snapshot trace is a non-decreasing chain whose last
element is the state of the final server. -/
lemma dispatchBatchStates_chain (ms : List Request) (reg : Registry) (s : Server) :
    List.Chain' stateLe (s.state :: (dispatchBatchStates reg s ms).fst) ∧
    ((dispatchBatchStates reg s ms).fst).getLastD s.state =
      ((dispatchBatchStates reg s ms).snd).state := by
  induction ms generalizing s with
  | nil => exact ⟨List.chain'_singleton _, rfl⟩
  | cons m ms ih =>
    obtain ⟨ihc, ihl⟩ := ih (dispatch reg s m).snd
    refine ⟨?_, ?_⟩
    · simp only [dispatchBatchStates]
      exact List.chain'_cons.mpr ⟨dispatch_state_mono reg s m, ihc⟩
    · simp only [dispatchBatchStates, List.getLastD_cons]
      exact ihl

/-- Gluing two non-decreasing chains at the connecting state. -/
lemma chain_le_append (l : List ServerState) (a b : ServerState)
    (l2 : List ServerState) (h1 : List.Chain' stateLe (a :: l))
    (h2 : l.getLastD a = b) (h3 : List.Chain' stateLe (b :: l2)) :
    List.Chain' stateLe (a :: (l ++ l2)) := by
  induction l generalizing a with
  | nil =>
    simp only [List.getLastD_nil] at h2
    subst h2
    simpa using h3
  | cons c t ih =>
    obtain ⟨hac, hct⟩ := List.chain'_cons.mp h1
    simp only [List.getLastD_cons] at h2
    exact List.chain'_cons.mpr ⟨hac, ih c hct h2⟩

/-- The final server of any run is in the Shutdown state (EOF moves any
state to Shutdown). -/
lemma run_final_shutdown (input : List Line) (reg : Registry) (s : Server) :
    ((run reg s input).fst).state = ServerState.shutdown := by
  induction input generalizing s with
  | nil => rfl
  | cons l rest ih =>
    cases l with
    | single r => simpa only [run, readMessage] using ih (dispatch reg s r).snd
    | batch rs =>
      match rs with
      | [] => simpa only [run, readMessage] using ih s
      | [m] => simpa only [run, readMessage] using ih (dispatch reg s m).snd
      | m :: m2 :: t =>
        simpa only [run, readMessage] using ih (dispatchBatch reg s (m :: m2 :: t)).fst
    | malformed => simpa only [run, readMessage] using ih s
    | tooLong => simpa only [run, readMessage] using ih s
    | ioError => simpa only [run, readMessage] using ih s

/-- The full snapshot trace of any execution is non-decreasing in the
lifecycle order. -/
lemma stateTrace_chain_le (input : List Line) (reg : Registry) (s : Server) :
    List.Chain' stateLe (stateTrace reg s input) := by
  unfold stateTrace
  induction input generalizing s with
  | nil =>
    exact List.chain'_cons.mpr ⟨stateIdx_le_three s.state, List.chain'_singleton _⟩
  | cons l rest ih =>
    cases l with
    | single r =>
      simp only [runStates, readMessage]
      exact List.chain'_cons.mpr ⟨dispatch_state_mono reg s r, ih (dispatch reg s r).snd⟩
    | batch rs =>
      match rs with
      | [] => simpa only [runStates, readMessage, dispatchBatchStates] using ih s
      | [m] =>
        simp only [runStates, readMessage]
        exact List.chain'_cons.mpr ⟨dispatch_state_mono reg s m, ih (dispatch reg s m).snd⟩
      | m :: m2 :: t =>
        simp only [runStates, readMessage]
        obtain ⟨hc, hl⟩ := dispatchBatchStates_chain (m :: m2 :: t) reg s
        exact chain_le_append _ _ _ _ hc hl (ih _)
    | malformed => simpa only [runStates, readMessage] using ih s
    | tooLong => simpa only [runStates, readMessage] using ih s
    | ioError => simpa only [runStates, readMessage] using ih s

/-- Collapsing consecutive duplicates of a non-decreasing state trace
yields a strictly increasing one. -/
lemma collapseFrom_chain_lt (rest : List ServerState) (a : ServerState)
    (h : List.Chain' stateLe (a :: rest)) :
    List.Chain' stateLt (a :: collapseFrom a rest) := by
  induction rest generalizing a with
  | nil => exact List.chain'_singleton _
  | cons b t ih =>
    obtain ⟨hab, hbt⟩ := List.chain'_cons.mp h
    by_cases hba : b = a
    · subst hba
      simp only [collapseFrom, if_pos rfl]
      exact ih b hbt
    · simp only [collapseFrom, if_neg hba]
      exact List.chain'_cons.mpr ⟨stateLt_of_le_ne a b hba hab, ih b hbt⟩

/-- The remaining canonical lifecycle sequence from a given state. -/
def canonFrom : ServerState → List ServerState
  | ServerState.created => canonicalLifecycle
  | ServerState.initializing =>
      [ServerState.initializing, ServerState.operating, ServerState.shutdown]
  | ServerState.operating => [ServerState.operating, ServerState.shutdown]
  | ServerState.shutdown => [ServerState.shutdown]

lemma canonFrom_step (a b : ServerState) (h : stateLt a b) :
    ∃ u, canonFrom a = a :: u ∧ List.Sublist (canonFrom b) u := by
  cases a <;> cases b <;>
    simp only [stateLt, ServerState.idx] at h <;>
    first
    | omega
    | exact ⟨_, rfl, by decide⟩

lemma canonFrom_sublist_canonical (a : ServerState) :
    List.Sublist (canonFrom a) canonicalLifecycle := by
  cases a <;> simp [canonFrom, canonicalLifecycle]

/-- A strictly increasing state sequence is a subsequence of the canonical
lifecycle sequence from its head. -/
lemma chain_lt_sublist (l : List ServerState) (a : ServerState)
    (h : List.Chain' stateLt (a :: l)) :
    List.Sublist (a :: l) (canonFrom a) := by
  induction l generalizing a with
  | nil =>
    cases a <;> simp [canonFrom, canonicalLifecycle]
  | cons b t ih =>
    obtain ⟨hab, hbt⟩ := List.chain'_cons.mp h
    obtain ⟨u, hu, hsub⟩ := canonFrom_step a b hab
    rw [hu]
    exact List.Sublist.cons₂ a ((ih b hbt).trans hsub)

def initReq : Request :=
  { jsonrpc := some "2.0", id := some (Jid.num 1), method := "initialize",
    params := noParams }

/-- C4 counterexample: the execution that receives end-of-input immediately
takes the state values (Created, Shutdown), which is NOT a prefix of
(Created, Initializing, Operating, Shutdown) — the claim's "prefix" fails
because end-of-input jumps to Shutdown from any state. -/
theorem c4_prefix_counterexample :
    valuesTaken (stateTrace demoRegistry initialServer []) =
      [ServerState.created, ServerState.shutdown] ∧
    ¬ isInitSegment (valuesTaken (stateTrace demoRegistry initialServer []))
        canonicalLifecycle := by
  refine ⟨rfl, ?_⟩
  rintro ⟨t, ht⟩
  have h1 : valuesTaken (stateTrace demoRegistry initialServer []) =
      [ServerState.created, ServerState.shutdown] := rfl
  rw [h1] at ht
  simp [canonicalLifecycle] at ht

/-- C4 amended: across every execution, the sequence of values taken by
the lifecycle state variable is a SUBSEQUENCE of
(Created, Initializing, Operating, Shutdown) — strictly ascending in the
lifecycle order, though not necessarily a prefix, since end-of-input moves
any state directly to Shutdown.  The individual transitions are as the
claim states: the snapshot trace never decreases, `initialize` moves
Created to Initializing, `notifications/initialized` moves Initializing to
Operating, and end-of-input moves any state to Shutdown. -/
theorem c4_lifecycle_subsequence :
    (∀ (reg : Registry) (s : Server) (input : List Line),
       List.Sublist (valuesTaken (stateTrace reg s input)) canonicalLifecycle) ∧
    (∀ (reg : Registry) (s : Server) (input : List Line),
       List.Chain' stateLe (stateTrace reg s input)) ∧
    (∀ (reg : Registry) (s : Server) (req : Request) (j : Jid),
       req.id = some j → req.method = "initialize" →
       s.state = ServerState.created →
       ((dispatch reg s req).snd).state = ServerState.initializing) ∧
    (∀ (reg : Registry) (s : Server) (req : Request),
       req.id = none → req.method = "notifications/initialized" →
       s.state = ServerState.initializing →
       ((dispatch reg s req).snd).state = ServerState.operating) ∧
    (∀ (reg : Registry) (s : Server) (input : List Line),
       ((run reg s input).fst).state = ServerState.shutdown) := by
  refine ⟨?_, ?_, ?_, ?_, ?_⟩
  · intro reg s input
    have h1 := stateTrace_chain_le input reg s
    have h2 : List.Chain' stateLt
        (valuesTaken (stateTrace reg s input)) := by
      simp only [stateTrace, valuesTaken] at h1 ⊢
      exact collapseFrom_chain_lt _ _ h1
    have h3 : valuesTaken (stateTrace reg s input) =
        s.state :: collapseFrom s.state (runStates reg s input) := rfl
    rw [h3] at h2 ⊢
    exact (chain_lt_sublist _ _ h2).trans (canonFrom_sublist_canonical s.state)
  · intro reg s input
    exact stateTrace_chain_le input reg s
  · intro reg s req j hid hm hs
    unfold dispatch
    rw [hid]
    simp [hm, hs, handleInitializeReq]
  · intro reg s req hid hm hs
    unfold dispatch
    rw [hid]
    simp [handleNotificationReq, hm, hs]
  · intro reg s input
    exact run_final_shutdown input reg s

/-- Witness for C4 at concrete inputs: the handshake execution's value
sequence is a subsequence of the canonical lifecycle, `initialize` in
Created yields Initializing, `notifications/initialized` in Initializing
yields Operating, and immediate end-of-input yields Shutdown. -/
theorem c4_lifecycle_subsequence_witness :
    List.Sublist (valuesTaken (stateTrace demoRegistry initialServer
      [Line.single initReq, Line.single initializedNotif])) canonicalLifecycle ∧
    ((dispatch demoRegistry initialServer initReq).snd).state =
      ServerState.initializing ∧
    ((dispatch demoRegistry { state := ServerState.initializing, inflight := [] }
        initializedNotif).snd).state = ServerState.operating ∧
    ((run demoRegistry initialServer []).fst).state = ServerState.shutdown :=
  ⟨c4_lifecycle_subsequence.1 demoRegistry initialServer
      [Line.single initReq, Line.single initializedNotif],
   c4_lifecycle_subsequence.2.2.1 demoRegistry initialServer initReq
      (Jid.num 1) rfl rfl rfl,
   c4_lifecycle_subsequence.2.2.2.1 demoRegistry
      { state := ServerState.initializing, inflight := [] } initializedNotif
      rfl rfl rfl,
   c4_lifecycle_subsequence.2.2.2.2 demoRegistry initialServer []⟩

/-! ## Identifier provenance (towards C5) -/

/-- Every response collected in the batch arm has a present identifier. -/
lemma dispatchBatch_resp_id (ms : List Request) (reg : Registry) (s : Server)
    (resp : Response) (h : resp ∈ (dispatchBatch reg s ms).snd) :
    resp.id ≠ none := by
  induction ms generalizing s with
  | nil => simp [dispatchBatch] at h
  | cons m ms ih =>
    simp only [dispatchBatch] at h
    cases hd : (dispatch reg s m).fst with
    | none =>
      rw [hd] at h
      exact ih (dispatch reg s m).snd h
    | some r =>
      rw [hd] at h
      rcases List.mem_cons.mp h with h1 | h1
      · subst h1
        intro hnone
        have hecho := dispatch_id_echo reg s m resp hd
        have : m.id = none := hecho ▸ hnone
        have := dispatch_no_id reg s m this
        rw [this] at hd
        exact Option.noConfusion hd
      · exact ih (dispatch reg s m).snd h1

/-- A response emitted by the main loop whose identifier is absent (and so
serializes as JSON null) is the -32700 parse-error response: dispatch-path
responses always carry the request's (present) identifier. -/
lemma run_null_id (input : List Line) (reg : Registry) (s : Server)
    (o : OutLine) (ho : o ∈ (run reg s input).snd) (resp : Response)
    (hr : resp ∈ o.resps) (hid : resp.id = none) :
    resp = newErrorResponse none (newParseError "read error") := by
  induction input generalizing s with
  | nil => simp [run] at ho
  | cons l rest ih =>
    have hsingle : ∀ (m : Request) (s0 : Server),
        o ∈ (match (dispatch reg s0 m).fst with
             | some r => OutLine.singleResp r :: (run reg (dispatch reg s0 m).snd rest).snd
             | none => (run reg (dispatch reg s0 m).snd rest).snd) →
        resp = newErrorResponse none (newParseError "read error") := by
      intro m s0 hm
      cases hd : (dispatch reg s0 m).fst with
      | none =>
        rw [hd] at hm
        exact ih (dispatch reg s0 m).snd hm
      | some r =>
        rw [hd] at hm
        rcases List.mem_cons.mp hm with h1 | h1
        · subst h1
          rcases List.mem_singleton.mp hr with rfl
          have hecho := dispatch_id_echo reg s0 m resp hd
          have hmid : m.id = none := hecho ▸ hid
          have := dispatch_no_id reg s0 m hmid
          rw [this] at hd
          exact Option.noConfusion hd
        · exact ih (dispatch reg s0 m).snd h1
    cases l with
    | single r =>
      simp only [run, readMessage] at ho
      exact hsingle r s ho
    | batch rs =>
      match rs with
      | [] =>
        simp only [run, readMessage, dispatchBatch, List.isEmpty] at ho
        exact ih s ho
      | [m] =>
        simp only [run, readMessage] at ho
        exact hsingle m s ho
      | m :: m2 :: t =>
        simp only [run, readMessage] at ho
        rcases hb : (dispatchBatch reg s (m :: m2 :: t)).snd with _ | ⟨r0, rs0⟩
        · rw [hb] at ho
          simp only [List.isEmpty, if_pos rfl] at ho
          exact ih _ ho
        · rw [hb] at ho
          simp only [List.isEmpty] at ho
          rcases List.mem_cons.mp ho with h1 | h1
          · subst h1
            have hmem : resp ∈ (dispatchBatch reg s (m :: m2 :: t)).snd := by
              rw [hb]; exact hr
            exact absurd hid (dispatchBatch_resp_id _ reg s resp hmem)
          · exact ih _ h1
    | malformed =>
      simp only [run, readMessage] at ho
      rcases List.mem_cons.mp ho with h1 | h1
      · subst h1
        rcases List.mem_singleton.mp hr with rfl
        rfl
      · exact ih s h1
    | tooLong =>
      simp only [run, readMessage] at ho
      rcases List.mem_cons.mp ho with h1 | h1
      · subst h1
        rcases List.mem_singleton.mp hr with rfl
        rfl
      · exact ih s h1
    | ioError =>
      simp only [run, readMessage] at ho
      rcases List.mem_cons.mp ho with h1 | h1
      · subst h1
        rcases List.mem_singleton.mp hr with rfl
        rfl
      · exact ih s h1

def pingStrReq : Request :=
  { jsonrpc := some "2.0", id := some (Jid.str "p"), method := "ping",
    params := noParams }

/-- C5 counterexample: a response identifier that serializes as JSON null
does NOT occur only for unparseable input.  The line
`{"jsonrpc":"2.0","id":null,"method":"ping"}` parses fine
(`readMessage` succeeds), yet the server answers it with a response whose
identifier serializes as null (the echoed explicit null), falsifying the
claim's final clause. -/
theorem c5_null_id_counterexample :
    readMessage (Line.single nullPing) = Except.ok [nullPing] ∧
    run demoRegistry initialServer [Line.single nullPing] =
      ({ state := ServerState.shutdown, inflight := [] },
       [OutLine.singleResp (newResponse (some Jid.null) ResultPayload.emptyObj)]) ∧
    wireNullId (newResponse (some Jid.null) ResultPayload.emptyObj).id = true := by
  exact ⟨rfl, rfl, rfl⟩

/-- C5 amended: for every request carrying an identifier x, any response
dispatch produces echoes exactly x in its raw serialized form (so a string
identifier stays a string and an integer stays an integer); and a response
with an ABSENT identifier (the nil raw message, which serializes as null)
is emitted only on an unparseable line, as the -32700 parse-error
response.  The remaining wire-null case is a request whose own identifier
was explicit JSON null, which the first part shows is echoed verbatim —
the code does not reject such requests, which is what falsifies the
original claim. -/
theorem c5_id_echo :
    (∀ (reg : Registry) (s : Server) (req : Request) (x : Jid)
       (resp : Response), req.id = some x →
       (dispatch reg s req).fst = some resp → resp.id = some x) ∧
    (∀ (input : List Line) (reg : Registry) (s : Server) (o : OutLine)
       (resp : Response), o ∈ (run reg s input).snd → resp ∈ o.resps →
       resp.id = none →
       resp = newErrorResponse none (newParseError "read error")) := by
  constructor
  · intro reg s req x resp hx h
    rw [dispatch_id_echo reg s req resp h, hx]
  · intro input reg s o resp ho hr hid
    exact run_null_id input reg s o ho resp hr hid

/-- Witness for C5 at concrete inputs: the string identifier `"p"` of a
ping is echoed as the same string (spec scenario 2), and the absent-id
response emitted for an unparseable line is the parse-error response. -/
theorem c5_id_echo_witness :
    (newResponse (some (Jid.str "p")) ResultPayload.emptyObj).id =
      some (Jid.str "p") ∧
    newErrorResponse none (newParseError "read error") =
      newErrorResponse none (newParseError "read error") :=
  ⟨c5_id_echo.1 demoRegistry initialServer pingStrReq (Jid.str "p")
      (newResponse (some (Jid.str "p")) ResultPayload.emptyObj) rfl rfl,
   c5_id_echo.2 [Line.malformed] demoRegistry initialServer
      (OutLine.singleResp (newErrorResponse none (newParseError "read error")))
      (newErrorResponse none (newParseError "read error"))
      (List.mem_singleton.mpr rfl) (List.mem_singleton.mpr rfl) rfl⟩

/-- C9: a `create_task` invocation with well-formed arguments (parsed
params whose supplied priority respects the schema's 1..5 range, a fresh
generated id, and an existing parent when one is named) creates and
returns a task record whose priority is 3 when the priority argument is
absent and the supplied value when present; the returned payload is
exactly the created record, and the stored table gains exactly that
row. -/
theorem c9_create_task_default_priority (newId now : String)
    (p : CreateTaskParams) (tasks : List Task)
    (hfresh : ∀ u ∈ tasks, u.id ≠ newId)
    (hprio : ∀ pr, p.priority = some pr → 1 ≤ pr ∧ pr ≤ 5)
    (hparent : ∀ pid, p.parentId = some pid → ∃ u ∈ tasks, u.id = pid) :
    createTask newId now p tasks =
      Except.ok (resultJSON (newTaskRecord newId p),
                 tasks ++ [storedRow now (newTaskRecord newId p)]) ∧
    (newTaskRecord newId p).priority =
      (match p.priority with
       | some pr => pr
       | none => 3) ∧
    (newTaskRecord newId p).description = p.description ∧
    (newTaskRecord newId p).parentId = p.parentId := by
  refine ⟨?_, rfl, rfl, rfl⟩
  have hpr : 1 ≤ (newTaskRecord newId p).priority ∧
      (newTaskRecord newId p).priority ≤ 5 := by
    cases hp : p.priority with
    | none =>
      constructor <;> simp [newTaskRecord, hp]
    | some pr =>
      have := hprio pr hp
      constructor <;> simp [newTaskRecord, hp, this.1, this.2]
  have hne : ¬ ∃ u ∈ tasks, u.id = (newTaskRecord newId p).id := by
    rintro ⟨u, hu, he⟩
    exact hfresh u hu (by simpa [newTaskRecord] using he)
  simp only [createTask, insertTask]
  rw [if_neg hne, if_neg (fun hcon => hcon hpr)]
  have hpp : (newTaskRecord newId p).parentId = p.parentId := rfl
  cases hp2 : p.parentId with
  | none =>
    rw [hpp, hp2]
  | some pid =>
    rw [hpp, hp2]
    simp only [if_pos (hparent pid hp2)]

/-- Witness for C9 at a concrete input: creating a task with only a
description defaults the priority to 3. -/
theorem c9_create_task_default_priority_witness :
    createTask "task_1" "t0"
        { description := "fix bug", parentId := none, priority := none,
          context := none } [] =
      Except.ok (resultJSON (newTaskRecord "task_1"
          { description := "fix bug", parentId := none, priority := none,
            context := none }),
        [] ++ [storedRow "t0" (newTaskRecord "task_1"
          { description := "fix bug", parentId := none, priority := none,
            context := none })]) ∧
    (newTaskRecord "task_1"
        { description := "fix bug", parentId := none, priority := none,
          context := none }).priority = 3 :=
  have h := c9_create_task_default_priority "task_1" "t0"
    { description := "fix bug", parentId := none, priority := none,
      context := none } []
    (by intro u hu; simp at hu)
    (by intro pr hpr; simp at hpr)
    (by intro pid hpid; simp at hpid)
  ⟨h.1, h.2.1⟩

end Bossman
